import Mathlib

/-!
Shallow embedding of the file-preparation pipeline of the wedding photo
upload widget (src/script.js): HEIC detection and conversion, selection
validation, raster-bounded re-encoding, and batch orchestration.
Names follow the source. Strings are modelled as lists of characters;
the external capabilities (heic2any conversion, canvas re-encoding, the
clock) are an explicit environment record.
-/

namespace Wedding

/-- `MAX_FILES` from src/script.js line 1. -/
def MAX_FILES : Nat := 10

/-- `MAX_FILE_SIZE_BYTES` from src/script.js line 2: 20 MiB. -/
def MAX_FILE_SIZE_BYTES : Nat := 20 * 1024 * 1024

/-- `MAX_WIDTH` from src/script.js line 3. -/
def MAX_WIDTH : Nat := 1920

/-- Identity of a file's byte content: raw platform bytes, the output of the
HEIC-to-JPEG conversion, or the output of a canvas re-encode at given
dimensions. Distinct constructors model that conversion and re-encoding
produce fresh blobs. -/
inductive Payload where
  | original (id : Nat)
  | converted (src : Payload)
  | reencoded (w h : Nat) (src : Payload)
  deriving DecidableEq

/-- Decoded raster dimensions of an image (`image.width` / `image.height`). -/
structure Raster where
  width : Nat
  height : Nat
  deriving DecidableEq

/-- A platform `File`: name, declared MIME type, byte size, modification
timestamp, the raster its bytes decode to (`none` when decoding fails),
and the identity of its bytes. -/
structure FileRec where
  name : List Char
  mimeType : List Char
  size : Nat
  lastModified : Nat
  raster : Option Raster
  payload : Payload
  deriving DecidableEq

/-- The character list of `"image/heic"`. -/
def mimeHeic : List Char := ['i', 'm', 'a', 'g', 'e', '/', 'h', 'e', 'i', 'c']

/-- The character list of `"image/heif"`. -/
def mimeHeif : List Char := ['i', 'm', 'a', 'g', 'e', '/', 'h', 'e', 'i', 'f']

/-- The character list of `"image/jpeg"`. -/
def mimeJpeg : List Char := ['i', 'm', 'a', 'g', 'e', '/', 'j', 'p', 'e', 'g']

/-- The character list of `"image/"`, the class used by the type check. -/
def imageSlash : List Char := ['i', 'm', 'a', 'g', 'e', '/']

/-- The characters of `".heic"` lowercased and reversed, for suffix tests. -/
def heicLowRev : List Char := ['c', 'i', 'e', 'h', '.']

/-- The characters of `".heif"` lowercased and reversed, for suffix tests. -/
def heifLowRev : List Char := ['f', 'i', 'e', 'h', '.']

/-- The character list of `".jpg"`. -/
def jpgExt : List Char := ['.', 'j', 'p', 'g']

/-- Check that the first list leads the second: `leadChars p s` is true when
`p` is an initial segment of `s`.  Embeds `String.prototype.startsWith`. -/
def leadChars : List Char → List Char → Bool
  | [], _ => true
  | _ :: _, [] => false
  | a :: as, b :: bs => a == b && leadChars as bs

/-- Compare an already-lowercased pattern against a string lowercased on the
fly, character by character. -/
def lowMatch : List Char → List Char → Bool
  | [], _ => true
  | _ :: _, [] => false
  | a :: as, b :: bs => (a == Char.toLower b) && lowMatch as bs

/-- Case-insensitive suffix test: `endsCI sufRev s` holds when `s` ends,
up to lowercasing, in the suffix whose lowercased reversal is `sufRev`.
Embeds the anchored case-insensitive regex tests of src/script.js. -/
def endsCI (sufRev : List Char) (s : List Char) : Bool :=
  lowMatch sufRev s.reverse

/-- `isHeicFile` from src/script.js lines 7-13: declared type is in
HEIC_TYPES, or the name ends in `.heic` or `.heif` case-insensitively. -/
def isHeicFile (f : FileRec) : Bool :=
  f.mimeType == mimeHeic || f.mimeType == mimeHeif ||
    endsCI heicLowRev f.name || endsCI heifLowRev f.name

/-- The rename of src/script.js line 22: replace a trailing `.heic`/`.heif`
(case-insensitive) with `.jpg`, otherwise leave the name unchanged. -/
def heicRename (n : List Char) : List Char :=
  if endsCI heicLowRev n || endsCI heifLowRev n then
    (n.reverse.drop 5).reverse ++ jpgExt
  else n

/-- Result of the external heic2any conversion capability: the size of the
produced JPEG blob and the raster it decodes to. -/
structure ConvOut where
  size : Nat
  raster : Option Raster
  deriving DecidableEq

/-- External capabilities the pipeline suspends on: the clock (`Date.now`),
the heic2any conversion, and canvas `toBlob` re-encoding (returning the
encoded blob's size, `none` when the platform yields a null blob). -/
structure Env where
  now : Nat
  convert : FileRec → Except Unit ConvOut
  encode : Raster → Option Nat

/-- Pipeline-stage failures (batch-fatal in the orchestrator). -/
inductive Err where
  | conversionFailed
  | decodeFailed
  | compressionFailed
  deriving DecidableEq

/-- `convertHeicToJpeg` from src/script.js lines 15-27: run the external
conversion, rename the file, stamp type `image/jpeg` and a fresh
timestamp. -/
def convertHeicToJpeg (env : Env) (f : FileRec) : Except Err FileRec :=
  match env.convert f with
  | .error _ => .error .conversionFailed
  | .ok out =>
    .ok { name := heicRename f.name, mimeType := mimeJpeg, size := out.size,
          lastModified := env.now, raster := out.raster,
          payload := .converted f.payload }

/-- `ensureImageCanLoad` from src/script.js lines 29-34: convert HEIC files,
pass everything else through unchanged. -/
def ensureImageCanLoad (env : Env) (f : FileRec) : Except Err FileRec :=
  if isHeicFile f then convertHeicToJpeg env f else .ok f

/-- `readFileAsImage` from src/script.js lines 135-147: decode the file's
bytes into a raster, failing when they do not parse as an image. -/
def readFileAsImage (f : FileRec) : Except Err Raster :=
  match f.raster with
  | none => .error .decodeFailed
  | some r => .ok r

/-- Round `a / b` to the nearest natural, halves up, as `Math.round` does on
the nonnegative quotient. -/
def roundHalfUp (a b : Nat) : Nat := (2 * a + b) / (2 * b)

/-- `compressImage` from src/script.js lines 149-191: normalize, decode,
pass small rasters through unchanged, otherwise scale to width
`MAX_WIDTH`, round the height, and re-encode to JPEG with a fresh
timestamp. -/
def compressImage (env : Env) (f : FileRec) : Except Err FileRec :=
  match ensureImageCanLoad env f with
  | .error e => .error e
  | .ok loadable =>
    match readFileAsImage loadable with
    | .error e => .error e
    | .ok image =>
      if image.width ≤ MAX_WIDTH then .ok loadable
      else
        match env.encode ⟨MAX_WIDTH, roundHalfUp (image.height * MAX_WIDTH) image.width⟩ with
        | none => .error .compressionFailed
        | some sz =>
          .ok { name := loadable.name, mimeType := mimeJpeg, size := sz,
                lastModified := env.now,
                raster := some ⟨MAX_WIDTH, roundHalfUp (image.height * MAX_WIDTH) image.width⟩,
                payload := .reencoded MAX_WIDTH
                  (roundHalfUp (image.height * MAX_WIDTH) image.width) loadable.payload }

/-- User-facing diagnostics emitted by validation and the orchestrator. -/
inductive Diag where
  | tooManyFiles
  | notAnImage
  | fileTooLarge
  | noValidFiles
  | processFailed
  deriving DecidableEq

/-- Per-file validation from src/script.js lines 83-97: the type check runs
first (image MIME class or HEIC detection), then the size check; `none`
means the file is accepted. -/
def validateFile (f : FileRec) : Option Diag :=
  if !(leadChars imageSlash f.mimeType || isHeicFile f) then some .notAnImage
  else if MAX_FILE_SIZE_BYTES < f.size then some .fileTooLarge
  else none

/-- The change listener of src/script.js lines 66-133: truncate the batch to
`MAX_FILES` (reporting `tooManyFiles` once when truncation applies),
validate each retained file in order, collect the accepted ones, and
report `noValidFiles` when a non-empty selection yields no accepted
file. Returns the accepted batch and the emitted diagnostics. -/
def handleSelection (files : List FileRec) : List FileRec × List Diag :=
  if files.length = 0 then ([], [])
  else
    let tooMany := if MAX_FILES < files.length then [Diag.tooManyFiles] else []
    let limited := files.take MAX_FILES
    let perFile := limited.filterMap validateFile
    let accepted := limited.filter (fun f => (validateFile f).isNone)
    let noValid := if accepted.isEmpty then [Diag.noValidFiles] else []
    (accepted, tooMany ++ perFile ++ noValid)

/-- `prepareCompressedFiles` from src/script.js lines 193-208: compress the
files in order, rethrowing the first stage failure so the whole batch
aborts. -/
def prepareCompressedFiles (env : Env) : List FileRec → Except Err (List FileRec)
  | [] => .ok []
  | f :: fs =>
    match compressImage env f with
    | .error e => .error e
    | .ok c =>
      match prepareCompressedFiles env fs with
      | .error e => .error e
      | .ok rest => .ok (c :: rest)

/-- Diagnostics emitted while preparing a batch: the catch block of
src/script.js lines 200-204 sets one message and rethrows, so a failing
batch emits exactly `processFailed`. -/
def prepareDiags (env : Env) : List FileRec → List Diag
  | [] => []
  | f :: fs =>
    match compressImage env f with
    | .error _ => [Diag.processFailed]
    | .ok _ => prepareDiags env fs

/-- What the submit handler of src/script.js lines 222-308 hands to the
upload transport: the prepared batch, or nothing when preparation threw
(the catch block skips the whole upload). -/
def uploadPayload (env : Env) (files : List FileRec) : Option (List FileRec) :=
  (prepareCompressedFiles env files).toOption

/-- Concrete environment for witnesses: the conversion succeeds preserving
the raster with a 100-byte blob, re-encoding yields a 50-byte blob, and
the clock reads 7. -/
def envJ : Env :=
  { now := 7, convert := fun f => .ok ⟨100, f.raster⟩, encode := fun _ => some 50 }

/-- Concrete file whose raster is 1000 wide and 3000 tall. -/
def tallFile : FileRec :=
  { name := ['a', '.', 'j', 'p', 'g'], mimeType := mimeJpeg, size := 100,
    lastModified := 0, raster := some ⟨1000, 3000⟩, payload := .original 0 }

/-- Concrete oversized non-image file: plain text, one byte over 20 MiB. -/
def bigText : FileRec :=
  { name := ['a', '.', 't', 'x', 't'],
    mimeType := ['t', 'e', 'x', 't', '/', 'p', 'l', 'a', 'i', 'n'],
    size := MAX_FILE_SIZE_BYTES + 1, lastModified := 0, raster := none,
    payload := .original 2 }

/-- Concrete 3000 by 2000 raster file. -/
def wideFile : FileRec :=
  { name := ['w', '.', 'j', 'p', 'g'], mimeType := mimeJpeg, size := 100,
    lastModified := 0, raster := some ⟨3000, 2000⟩, payload := .original 3 }

/-- Concrete HEIC file named `photo.heic` with empty declared type. -/
def photoHeic : FileRec :=
  { name := ['p', 'h', 'o', 't', 'o', '.', 'h', 'e', 'i', 'c'], mimeType := [],
    size := 5, lastModified := 3, raster := some ⟨10, 20⟩, payload := .original 1 }

/-- Concrete file whose bytes fail to decode, for failure witnesses. -/
def badFile : FileRec :=
  { name := ['b', '.', 'j', 'p', 'g'], mimeType := mimeJpeg, size := 9,
    lastModified := 0, raster := none, payload := .original 4 }

/-- Concrete oversized image file: JPEG type, one byte over 20 MiB. -/
def bigImage : FileRec :=
  { name := ['c', '.', 'j', 'p', 'g'], mimeType := mimeJpeg,
    size := MAX_FILE_SIZE_BYTES + 1, lastModified := 0,
    raster := some ⟨100, 100⟩, payload := .original 5 }

/-- Concrete small decodable image file. -/
def smallFile : FileRec :=
  { name := ['s', '.', 'j', 'p', 'g'], mimeType := mimeJpeg, size := 10,
    lastModified := 5, raster := some ⟨1500, 900⟩, payload := .original 6 }

/-- The record `compressImage` produces from `wideFile` under `envJ`. -/
def wideRes : FileRec :=
  { name := wideFile.name, mimeType := mimeJpeg, size := 50,
    lastModified := 7, raster := some ⟨1920, 1280⟩,
    payload := .reencoded 1920 1280 (.original 3) }

/-- The record `convertHeicToJpeg` produces from `photoHeic` under `envJ`. -/
def photoJpg : FileRec :=
  { name := ['p', 'h', 'o', 't', 'o', '.', 'j', 'p', 'g'], mimeType := mimeJpeg,
    size := 100, lastModified := 7, raster := some ⟨10, 20⟩,
    payload := .converted (.original 1) }

/-- Count the occurrences of a diagnostic in an emitted diagnostic list. -/
def countD (d : Diag) : List Diag → Nat
  | [] => 0
  | x :: xs => (if x = d then 1 else 0) + countD d xs

/-! Helper lemmas about the embedding. -/

theorem jpgExt_rev : jpgExt.reverse = ['g', 'p', 'j', '.'] := rfl

theorem lowMatch_heic_g (rest : List Char) :
    lowMatch heicLowRev ('g' :: rest) = false := by
  have hc : ('c' == Char.toLower 'g') = false := by decide
  simp [heicLowRev, lowMatch, hc]

theorem lowMatch_heif_g (rest : List Char) :
    lowMatch heifLowRev ('g' :: rest) = false := by
  have hf : ('f' == Char.toLower 'g') = false := by decide
  simp [heifLowRev, lowMatch, hf]

/-- Renaming a HEIC-family file never leaves a name that still ends in a
HEIC-family suffix. -/
theorem heicRename_no_heic (n : List Char) :
    endsCI heicLowRev (heicRename n) = false ∧
      endsCI heifLowRev (heicRename n) = false := by
  unfold heicRename
  by_cases h : (endsCI heicLowRev n || endsCI heifLowRev n) = true
  · rw [if_pos h]
    unfold endsCI
    rw [List.reverse_append, jpgExt_rev]
    exact ⟨lowMatch_heic_g _, lowMatch_heif_g _⟩
  · rw [if_neg h]
    simp only [Bool.or_eq_true, not_or, Bool.not_eq_true] at h
    exact ⟨h.1, h.2⟩

theorem mimeJpeg_ne_heic : (mimeJpeg == mimeHeic) = false := by decide

theorem mimeJpeg_ne_heif : (mimeJpeg == mimeHeif) = false := by decide

/-- Inversion for `ensureImageCanLoad`: success either passes a non-HEIC
file through or returns the converted record of a HEIC file. -/
theorem ensure_ok_inv (env : Env) (f l : FileRec)
    (h : ensureImageCanLoad env f = .ok l) :
    (isHeicFile f = false ∧ l = f) ∨
      (isHeicFile f = true ∧ ∃ out, env.convert f = .ok out ∧
        l = { name := heicRename f.name, mimeType := mimeJpeg, size := out.size,
              lastModified := env.now, raster := out.raster,
              payload := .converted f.payload }) := by
  unfold ensureImageCanLoad at h
  by_cases hh : isHeicFile f = true
  · rw [if_pos hh] at h
    unfold convertHeicToJpeg at h
    cases hc : env.convert f with
    | error e => rw [hc] at h; simp at h
    | ok out =>
      rw [hc] at h
      simp only [Except.ok.injEq] at h
      exact Or.inr ⟨hh, out, rfl, h.symm⟩
  · rw [if_neg hh] at h
    simp only [Except.ok.injEq] at h
    exact Or.inl ⟨by simpa using hh, h.symm⟩

/-- The file returned by `ensureImageCanLoad` is never itself detected as
HEIC. -/
theorem ensure_ok_not_heic (env : Env) (f l : FileRec)
    (h : ensureImageCanLoad env f = .ok l) : isHeicFile l = false := by
  rcases ensure_ok_inv env f l h with ⟨hnh, rfl⟩ | ⟨_, out, _, rfl⟩
  · exact hnh
  · unfold isHeicFile
    simp [mimeJpeg_ne_heic, mimeJpeg_ne_heif, (heicRename_no_heic f.name).1,
      (heicRename_no_heic f.name).2]

/-- Pass-through branch of `compressImage`: a decodable normalized file of
width at most `MAX_WIDTH` is returned unchanged. -/
theorem compress_pass (env : Env) (f l : FileRec) (r : Raster)
    (hl : ensureImageCanLoad env f = .ok l) (hr : l.raster = some r)
    (hw : r.width ≤ MAX_WIDTH) : compressImage env f = .ok l := by
  simp only [compressImage, hl, readFileAsImage, hr]
  simp [hw]

/-- Resize branch of `compressImage`: a decodable normalized file wider than
`MAX_WIDTH` is re-encoded at width `MAX_WIDTH` and rounded height. -/
theorem compress_resize (env : Env) (f l : FileRec) (r : Raster) (sz : Nat)
    (hl : ensureImageCanLoad env f = .ok l) (hr : l.raster = some r)
    (hw : MAX_WIDTH < r.width)
    (he : env.encode ⟨MAX_WIDTH, roundHalfUp (r.height * MAX_WIDTH) r.width⟩ = some sz) :
    compressImage env f =
      .ok { name := l.name, mimeType := mimeJpeg, size := sz,
            lastModified := env.now,
            raster := some ⟨MAX_WIDTH, roundHalfUp (r.height * MAX_WIDTH) r.width⟩,
            payload := .reencoded MAX_WIDTH
              (roundHalfUp (r.height * MAX_WIDTH) r.width) l.payload } := by
  simp only [compressImage, hl, readFileAsImage, hr]
  rw [if_neg (by omega : ¬ r.width ≤ MAX_WIDTH), he]

/-- Inversion for `compressImage`: success is either the pass-through of the
normalized file or the re-encoded record of the resize branch. -/
theorem compress_ok_inv (env : Env) (f g : FileRec)
    (h : compressImage env f = .ok g) :
    ∃ l r, ensureImageCanLoad env f = .ok l ∧ l.raster = some r ∧
      ((r.width ≤ MAX_WIDTH ∧ g = l) ∨
        (MAX_WIDTH < r.width ∧ ∃ sz,
          env.encode ⟨MAX_WIDTH, roundHalfUp (r.height * MAX_WIDTH) r.width⟩ = some sz ∧
          g = { name := l.name, mimeType := mimeJpeg, size := sz,
                lastModified := env.now,
                raster := some ⟨MAX_WIDTH, roundHalfUp (r.height * MAX_WIDTH) r.width⟩,
                payload := .reencoded MAX_WIDTH
                  (roundHalfUp (r.height * MAX_WIDTH) r.width) l.payload })) := by
  unfold compressImage at h
  split at h
  · simp at h
  next loadable heq =>
    split at h
    · simp at h
    next image heq2 =>
      have hr : loadable.raster = some image := by
        unfold readFileAsImage at heq2
        split at heq2
        · simp at heq2
        next r2 heq3 =>
          simp only [Except.ok.injEq] at heq2
          rw [heq3, heq2]
      split at h
      next hw =>
        simp only [Except.ok.injEq] at h
        exact ⟨loadable, image, heq, hr, Or.inl ⟨hw, h.symm⟩⟩
      next hw =>
        split at h
        · simp at h
        next sz heq4 =>
          simp only [Except.ok.injEq] at h
          exact ⟨loadable, image, heq, hr, Or.inr ⟨by omega, sz, heq4, h.symm⟩⟩

/-- Any successful output of `compressImage` is non-HEIC and decodes to a
raster of width at most `MAX_WIDTH`. -/
theorem compress_ok_props (env : Env) (f g : FileRec)
    (h : compressImage env f = .ok g) :
    isHeicFile g = false ∧ ∃ r, g.raster = some r ∧ r.width ≤ MAX_WIDTH := by
  obtain ⟨l, r, hl, hr, hcase⟩ := compress_ok_inv env f g h
  have hnh := ensure_ok_not_heic env f l hl
  rcases hcase with ⟨hw, rfl⟩ | ⟨hw, sz, he, rfl⟩
  · exact ⟨hnh, r, hr, hw⟩
  · refine ⟨?_, ⟨MAX_WIDTH, roundHalfUp (r.height * MAX_WIDTH) r.width⟩, rfl, le_refl _⟩
    unfold isHeicFile at hnh ⊢
    simp only [Bool.or_eq_false_iff] at hnh
    simp [mimeJpeg_ne_heic, mimeJpeg_ne_heif, hnh.1.2, hnh.2]

/-- Every member of a successfully prepared batch is the compression of some
member of the input batch. -/
theorem prepare_ok_mem (env : Env) (l out : List FileRec)
    (h : prepareCompressedFiles env l = .ok out) (x : FileRec) (hx : x ∈ out) :
    ∃ g ∈ l, compressImage env g = .ok x := by
  induction l generalizing out with
  | nil =>
    unfold prepareCompressedFiles at h
    simp only [Except.ok.injEq] at h
    subst h
    cases hx
  | cons f fs ih =>
    unfold prepareCompressedFiles at h
    split at h
    · simp at h
    next c heq =>
      split at h
      · simp at h
      next rest heq2 =>
        simp only [Except.ok.injEq] at h
        subst h
        rcases List.mem_cons.mp hx with rfl | hx2
        · exact ⟨f, List.mem_cons_self f fs, heq⟩
        · obtain ⟨g, hg, hcg⟩ := ih rest heq2 hx2
          exact ⟨g, List.mem_cons_of_mem f hg, hcg⟩

/-- When any file of the batch fails compression, preparation fails and
emits exactly the `processFailed` diagnostic. -/
theorem prepare_err_of_mem (env : Env) (l : List FileRec) (f : FileRec)
    (hf : f ∈ l) (e : Err) (he : compressImage env f = .error e) :
    (∃ e2, prepareCompressedFiles env l = .error e2) ∧
      prepareDiags env l = [Diag.processFailed] := by
  induction l with
  | nil => cases hf
  | cons g gs ih =>
    cases hc : compressImage env g with
    | error e3 =>
      refine ⟨⟨e3, ?_⟩, ?_⟩
      · simp [prepareCompressedFiles, hc]
      · simp [prepareDiags, hc]
    | ok c =>
      rcases List.mem_cons.mp hf with rfl | hf2
      · rw [he] at hc; simp at hc
      · obtain ⟨⟨e2, hp⟩, hd⟩ := ih hf2
        refine ⟨⟨e2, ?_⟩, ?_⟩
        · simp [prepareCompressedFiles, hc, hp]
        · simp [prepareDiags, hc, hd]

/-- A compression output carrying raw platform bytes must be the unchanged
input file itself. -/
theorem compress_ok_original (env : Env) (q x : FileRec) (i : Nat)
    (h : compressImage env q = .ok x) (hp : x.payload = .original i) : x = q := by
  obtain ⟨l, r, hl, hr, hcase⟩ := compress_ok_inv env q x h
  rcases hcase with ⟨hw, rfl⟩ | ⟨hw, sz, he, rfl⟩
  · rcases ensure_ok_inv env q x hl with ⟨_, rfl⟩ | ⟨_, out, _, rfl⟩
    · rfl
    · simp at hp
  · simp at hp

/-- Validation never emits the batch-level diagnostic per file. -/
theorem validateFile_ne_tooMany (f : FileRec) :
    validateFile f ≠ some Diag.tooManyFiles := by
  unfold validateFile
  split_ifs <;> simp

theorem countD_append (d : Diag) (l1 l2 : List Diag) :
    countD d (l1 ++ l2) = countD d l1 + countD d l2 := by
  induction l1 with
  | nil => simp [countD]
  | cons x xs ih => simp [countD, ih, Nat.add_assoc]

theorem countD_filterMap_validate (l : List FileRec) :
    countD Diag.tooManyFiles (l.filterMap validateFile) = 0 := by
  induction l with
  | nil => rfl
  | cons f fs ih =>
    cases hv : validateFile f with
    | none => simpa [List.filterMap_cons, hv] using ih
    | some d =>
      have hd : d ≠ Diag.tooManyFiles := by
        intro hdd
        exact validateFile_ne_tooMany f (hdd ▸ hv)
      simp [List.filterMap_cons, hv, countD, hd, ih]

/-- A file rejected by per-file validation is never in the accepted batch. -/
theorem rejected_not_selected (files : List FileRec) (f : FileRec)
    (hv : validateFile f ≠ none) : f ∉ (handleSelection files).1 := by
  intro hmem
  by_cases h0 : files.length = 0
  · simp [handleSelection, h0] at hmem
  · simp only [handleSelection, if_neg h0] at hmem
    rw [List.mem_filter] at hmem
    exact hv (Option.isNone_iff_eq_none.mp hmem.2)

/-! Claim theorems. -/

/-- Claim C1, counterexample: the claim says no ProcessedFile has either
dimension above `MAX_WIDTH`, but a 1000 by 3000 raster is passed through
unchanged, so the output's height 3000 exceeds `MAX_WIDTH`. -/
theorem C1_counterexample :
    compressImage envJ tallFile = .ok tallFile ∧
      tallFile.raster = some ⟨1000, 3000⟩ ∧ MAX_WIDTH < 3000 := by
  exact ⟨rfl, rfl, by decide⟩

/-- Claim C1, amended: every ProcessedFile produced by `compressImage` has
width at most `MAX_WIDTH` (1920), and whenever the normalized file's
decoded width exceeds `MAX_WIDTH` the output decodes to exactly width
`MAX_WIDTH` and the aspect-preserving rounded height
`round(h * 1920 / w)`; the height is not bounded, since the pass-through
decision looks only at the width. -/
theorem C1_width_bounded (env : Env) (f g : FileRec)
    (h : compressImage env f = .ok g) :
    (∀ r, g.raster = some r → r.width ≤ MAX_WIDTH) ∧
      (∀ l r, ensureImageCanLoad env f = .ok l → l.raster = some r →
        MAX_WIDTH < r.width →
        g.raster = some ⟨MAX_WIDTH, roundHalfUp (r.height * MAX_WIDTH) r.width⟩) := by
  constructor
  · intro r hr
    obtain ⟨_, r2, hr2, hw⟩ := compress_ok_props env f g h
    rw [hr2] at hr
    cases hr
    exact hw
  · intro l r hl hr hwide
    obtain ⟨l0, r0, hl0, hr0, hcase⟩ := compress_ok_inv env f g h
    rw [hl0] at hl
    cases hl
    rw [hr0] at hr
    cases hr
    rcases hcase with ⟨hw, rfl⟩ | ⟨hw, sz, he, rfl⟩
    · omega
    · rfl

/-- Witness for C1: the amended theorem applied to the concrete resize of
the 3000 by 2000 `wideFile`, whose output is 1920 by 1280, and to the
output's own raster. -/
theorem C1_width_bounded_witness :
    compressImage envJ wideFile = .ok wideRes ∧
      (Raster.mk 1920 1280).width ≤ MAX_WIDTH ∧
      wideRes.raster = some ⟨MAX_WIDTH, roundHalfUp (2000 * MAX_WIDTH) 3000⟩ :=
  ⟨rfl, (C1_width_bounded envJ wideFile wideRes rfl).1 ⟨1920, 1280⟩ rfl,
    (C1_width_bounded envJ wideFile wideRes rfl).2 wideFile ⟨3000, 2000⟩ rfl rfl
      (by decide)⟩

/-- Claim C2, counterexample: an oversized plain-text file is rejected with
`notAnImage`, not `fileTooLarge`, because the type check runs first. -/
theorem C2_counterexample :
    MAX_FILE_SIZE_BYTES < bigText.size ∧
      validateFile bigText = some Diag.notAnImage ∧
      validateFile bigText ≠ some Diag.fileTooLarge := by
  decide

/-- Claim C2, amended: every file over `MAX_FILE_SIZE_BYTES` is rejected by
validation, but the diagnostic is `fileTooLarge` only when the file passes
the type check first; an oversized non-image is rejected as `notAnImage`. -/
theorem C2_size_rejection (f : FileRec) (h : MAX_FILE_SIZE_BYTES < f.size) :
    validateFile f ≠ none ∧
      ((leadChars imageSlash f.mimeType || isHeicFile f) = true →
        validateFile f = some Diag.fileTooLarge) := by
  constructor
  · unfold validateFile
    split_ifs <;> simp_all
  · intro ht
    unfold validateFile
    rw [ht]
    simp [h]

/-- Witness for C2: the amended theorem applied to a concrete oversized
JPEG file. -/
theorem C2_size_rejection_witness :
    MAX_FILE_SIZE_BYTES < bigImage.size ∧
      validateFile bigImage = some Diag.fileTooLarge :=
  ⟨by decide, (C2_size_rejection bigImage (by decide)).2 (by decide)⟩

/-- Claim C3: when more than `MAX_FILES` files are selected, `tooManyFiles`
is emitted exactly once for the batch and validation considers exactly the
first `MAX_FILES` files: the accepted batch equals the accepted batch of
the truncated selection. -/
theorem C3_truncation (files : List FileRec) (h : MAX_FILES < files.length) :
    countD Diag.tooManyFiles (handleSelection files).2 = 1 ∧
      (handleSelection files).1 = (handleSelection (files.take MAX_FILES)).1 := by
  have h0 : ¬ files.length = 0 := by omega
  have hlen10 : (files.take MAX_FILES).length = MAX_FILES := by
    rw [List.length_take]
    omega
  have h0t : ¬ (files.take MAX_FILES).length = 0 := by
    rw [hlen10]
    decide
  constructor
  · simp only [handleSelection, if_neg h0, if_pos h]
    rw [countD_append, countD_append, countD_filterMap_validate]
    split <;> simp [countD]
  · simp only [handleSelection, if_neg h0, if_neg h0t, List.take_take]
    simp

/-- Witness for C3: an 11-file batch (eleven copies of `smallFile`). -/
theorem C3_truncation_witness :
    countD Diag.tooManyFiles (handleSelection (List.replicate 11 smallFile)).2 = 1 ∧
      (handleSelection (List.replicate 11 smallFile)).1 =
        (handleSelection ((List.replicate 11 smallFile).take MAX_FILES)).1 :=
  C3_truncation (List.replicate 11 smallFile) (by decide)

/-- Claim C4: an accepted file whose normalized form decodes to a raster of
width at most `MAX_WIDTH` is passed through `compressImage` unchanged — the
normalized file is returned as-is, with bytes, type, name and timestamp
intact, and no re-encoding happens. -/
theorem C4_passthrough (env : Env) (f l : FileRec) (r : Raster)
    (hl : ensureImageCanLoad env f = .ok l) (hr : l.raster = some r)
    (hw : r.width ≤ MAX_WIDTH) : compressImage env f = .ok l :=
  compress_pass env f l r hl hr hw

/-- Witness for C4: `smallFile` (1500 wide) is returned unchanged. -/
theorem C4_passthrough_witness :
    ensureImageCanLoad envJ smallFile = .ok smallFile ∧
      compressImage envJ smallFile = .ok smallFile :=
  ⟨rfl, C4_passthrough envJ smallFile smallFile ⟨1500, 900⟩ rfl rfl (by decide)⟩

/-- Claim C5: when the decoded raster is wider than `MAX_WIDTH`, the output
decodes to width exactly `MAX_WIDTH` and height `round(h * 1920 / w)`
(halves up, as `Math.round`); concretely a 3000 by 2000 raster resizes to
1920 by 1280. -/
theorem C5_resize_dims :
    (∀ (env : Env) (f l : FileRec) (r : Raster) (sz : Nat),
      ensureImageCanLoad env f = .ok l → l.raster = some r →
      MAX_WIDTH < r.width →
      env.encode ⟨MAX_WIDTH, roundHalfUp (r.height * MAX_WIDTH) r.width⟩ = some sz →
      ∃ g, compressImage env f = .ok g ∧
        g.raster = some ⟨MAX_WIDTH, roundHalfUp (r.height * MAX_WIDTH) r.width⟩) ∧
    roundHalfUp (2000 * MAX_WIDTH) 3000 = 1280 ∧
    compressImage envJ wideFile =
      .ok { name := wideFile.name, mimeType := mimeJpeg, size := 50,
            lastModified := 7, raster := some ⟨1920, 1280⟩,
            payload := .reencoded 1920 1280 (.original 3) } := by
  refine ⟨fun env f l r sz hl hr hw he => ⟨_, compress_resize env f l r sz hl hr hw he, rfl⟩, by decide, rfl⟩

/-- Witness for C5: the general statement applied to the concrete 3000 by
2000 file. -/
theorem C5_resize_dims_witness :
    ∃ g, compressImage envJ wideFile = .ok g ∧
      g.raster = some ⟨MAX_WIDTH, roundHalfUp (2000 * MAX_WIDTH) 3000⟩ :=
  C5_resize_dims.1 envJ wideFile wideFile ⟨3000, 2000⟩ 50 rfl rfl (by decide) rfl

/-- Claim C6: `compressImage` is idempotent on its outputs — any successful
output decodes to width at most `MAX_WIDTH`, and running `compressImage`
again on it (under any environment) returns it unchanged. -/
theorem C6_idempotent (env env2 : Env) (f g : FileRec)
    (h : compressImage env f = .ok g) :
    (∃ r, g.raster = some r ∧ r.width ≤ MAX_WIDTH) ∧
      compressImage env2 g = .ok g := by
  obtain ⟨hnh, r, hr, hw⟩ := compress_ok_props env f g h
  have hens : ensureImageCanLoad env2 g = .ok g := by
    simp [ensureImageCanLoad, hnh]
  exact ⟨⟨r, hr, hw⟩, compress_pass env2 g g r hens hr hw⟩

/-- Witness for C6: re-running compression on the pass-through output of
`tallFile` returns it unchanged. -/
theorem C6_idempotent_witness : compressImage envJ tallFile = .ok tallFile :=
  (C6_idempotent envJ envJ tallFile tallFile rfl).2

/-- Claim C7: a file is detected as HEIC-family exactly when its declared
type is `image/heic` or `image/heif` or its name ends in `.heic` or
`.heif` case-insensitively; concretely, `photo.heic` with empty declared
type is detected via its extension, converted to JPEG, and renamed to
`photo.jpg`. -/
theorem C7_heic_detection :
    (∀ f : FileRec, isHeicFile f = true ↔
      (f.mimeType = mimeHeic ∨ f.mimeType = mimeHeif ∨
        endsCI heicLowRev f.name = true ∨ endsCI heifLowRev f.name = true)) ∧
    photoHeic.mimeType = [] ∧ isHeicFile photoHeic = true ∧
    ensureImageCanLoad envJ photoHeic = .ok photoJpg ∧
    photoJpg.name = ['p', 'h', 'o', 't', 'o', '.', 'j', 'p', 'g'] ∧
    photoJpg.mimeType = mimeJpeg := by
  refine ⟨fun f => ?_, rfl, by decide, rfl, rfl, rfl⟩
  simp only [isHeicFile, Bool.or_eq_true, beq_iff_eq]
  tauto

/-- Claim C8: if any file of the batch fails a pipeline stage, the whole
batch preparation fails — no ProcessedFile list is produced, nothing is
handed to the upload transport, and the `processFailed` diagnostic is
emitted. -/
theorem C8_batch_abort (env : Env) (files : List FileRec) (f : FileRec)
    (e : Err) (hf : f ∈ files) (he : compressImage env f = .error e) :
    (∃ e2, prepareCompressedFiles env files = .error e2) ∧
      uploadPayload env files = none ∧
      prepareDiags env files = [Diag.processFailed] := by
  obtain ⟨⟨e2, hp⟩, hd⟩ := prepare_err_of_mem env files f hf e he
  refine ⟨⟨e2, hp⟩, ?_, hd⟩
  simp [uploadPayload, hp, Except.toOption]

/-- Witness for C8: a batch containing one undecodable file aborts. -/
theorem C8_batch_abort_witness :
    (∃ e2, prepareCompressedFiles envJ [badFile] = .error e2) ∧
      uploadPayload envJ [badFile] = none ∧
      prepareDiags envJ [badFile] = [Diag.processFailed] :=
  C8_batch_abort envJ [badFile] badFile .decodeFailed (by simp) rfl

/-- Claim C9: a file that neither has an `image/`-class type nor is detected
as HEIC-family is rejected with `notAnImage`; a rejected file never appears
in the accepted batch, and (being a raw platform file) never appears in
the prepared output either. -/
theorem C9_rejection (files : List FileRec) (env : Env) (f : FileRec)
    (i : Nat) (out : List FileRec) :
    (leadChars imageSlash f.mimeType = false → isHeicFile f = false →
      validateFile f = some Diag.notAnImage) ∧
    (validateFile f ≠ none → f ∉ (handleSelection files).1) ∧
    (validateFile f ≠ none → f.payload = .original i →
      prepareCompressedFiles env (handleSelection files).1 = .ok out →
      f ∉ out) := by
  refine ⟨fun h1 h2 => ?_, rejected_not_selected files f, fun hv hp hout hmem => ?_⟩
  · simp [validateFile, h1, h2]
  · obtain ⟨g, hg, hcg⟩ := prepare_ok_mem env _ out hout f hmem
    have hfg := compress_ok_original env g f i hcg hp
    subst hfg
    exact rejected_not_selected files f hv hg

/-- Witness for C9: the oversized text file is rejected and absent from the
accepted batch and prepared output of its own selection. -/
theorem C9_rejection_witness :
    validateFile bigText = some Diag.notAnImage ∧
      bigText ∉ (handleSelection [bigText]).1 ∧ bigText ∉ ([] : List FileRec) :=
  ⟨(C9_rejection [bigText] envJ bigText 2 []).1 (by decide) (by decide),
    (C9_rejection [bigText] envJ bigText 2 []).2.1 (by decide),
    (C9_rejection [bigText] envJ bigText 2 []).2.2 (by decide) rfl rfl⟩

/-- Claim C10: the pass-through decision depends only on the decoded width —
a non-HEIC file whose raster width is at most `MAX_WIDTH` is returned
unchanged by `compressImage` whatever its height, so a tall image keeps a
height above `MAX_WIDTH`. -/
theorem C10_width_only (env : Env) (f : FileRec) (r : Raster)
    (hh : isHeicFile f = false) (hr : f.raster = some r)
    (hw : r.width ≤ MAX_WIDTH) : compressImage env f = .ok f := by
  have hens : ensureImageCanLoad env f = .ok f := by
    simp [ensureImageCanLoad, hh]
  exact compress_pass env f f r hens hr hw

/-- Witness for C10: the 1000 by 3000 file passes through even though its
height exceeds `MAX_WIDTH`. -/
theorem C10_width_only_witness :
    MAX_WIDTH < 3000 ∧ compressImage envJ tallFile = .ok tallFile :=
  ⟨by decide, C10_width_only envJ tallFile ⟨1000, 3000⟩ (by decide) rfl (by decide)⟩

end Wedding
